import Mathlib

/-!
Shallow embedding of the loan-processing frontend's core logic
(risk classification, bucket aggregation, metrics aggregation and
transaction normalization) together with proofs about it.

Sources embedded here:
- `getRisk`, `buildSegmentsFromBreakdowns`, `aggregateMetrics`
  (frontend/src/components/SelectedInsightsPage.js),
- `normalizeTransaction`
  (frontend/src/components/CombinedTransactionsDialog.js and
  frontend/src/components/SelectedTransactionsPage.js; the two copies
  are identical except that the dialog variant also echoes the raw
  input in a `raw` field, which no property below depends on).

Modelling conventions:
- JavaScript numbers are modelled as extended rationals (`JNum`):
  `NaN`, `Infinity`, `-Infinity` or an exact rational.  This idealizes
  IEEE doubles by exact arithmetic (float literals such as `0.1` become
  the rational `1/10`) while keeping the discrete behaviours the code
  depends on: `NaN` propagation, `NaN` failing every comparison,
  division by zero producing signed infinity, and `NaN`/`0`/`''`/`false`
  being falsy.
- JavaScript field values reaching these functions are modelled by
  `JSVal` (a number, a string or a boolean); an absent, `undefined` or
  `null` field is `Option.none`, matching how `??` and `||` treat them.
- `Math.random` is modelled by passing the random suffix of the
  generated fallback id as an explicit argument.
-/

namespace LoanProc

/-- A JavaScript number: `NaN`, `Infinity`, `-Infinity`, or a finite value
(idealized as an exact rational). -/
inductive JNum where
  | nan
  | inf
  | ninf
  | num (q : ℚ)
  deriving DecidableEq, Repr

namespace JNum

/-- JS unary minus. -/
def jneg : JNum → JNum
  | nan => nan
  | inf => ninf
  | ninf => inf
  | num q => num (-q)

/-- JS `+` on numbers. -/
def jadd : JNum → JNum → JNum
  | nan, _ => nan
  | _, nan => nan
  | inf, ninf => nan
  | ninf, inf => nan
  | inf, _ => inf
  | _, inf => inf
  | ninf, _ => ninf
  | _, ninf => ninf
  | num a, num b => num (a + b)

/-- JS `*` on numbers. -/
def jmul : JNum → JNum → JNum
  | nan, _ => nan
  | _, nan => nan
  | inf, inf => inf
  | inf, ninf => ninf
  | ninf, inf => ninf
  | ninf, ninf => inf
  | inf, num b => if b = 0 then nan else if 0 < b then inf else ninf
  | num a, inf => if a = 0 then nan else if 0 < a then inf else ninf
  | ninf, num b => if b = 0 then nan else if 0 < b then ninf else inf
  | num a, ninf => if a = 0 then nan else if 0 < a then ninf else inf
  | num a, num b => num (a * b)

/-- JS `/` on numbers (division by zero yields a signed infinity or `NaN`,
never an exception). -/
def jdiv : JNum → JNum → JNum
  | nan, _ => nan
  | _, nan => nan
  | inf, inf => nan
  | inf, ninf => nan
  | ninf, inf => nan
  | ninf, ninf => nan
  | inf, num b => if 0 ≤ b then inf else ninf
  | ninf, num b => if 0 ≤ b then ninf else inf
  | num _, inf => num 0
  | num _, ninf => num 0
  | num a, num b =>
      if b = 0 then (if a = 0 then nan else if 0 < a then inf else ninf)
      else num (a / b)

/-- JS `<` on numbers; any comparison involving `NaN` is false. -/
def jlt : JNum → JNum → Bool
  | nan, _ => false
  | _, nan => false
  | inf, _ => false
  | _, inf => true
  | ninf, ninf => false
  | ninf, _ => true
  | _, ninf => false
  | num a, num b => decide (a < b)

/-- JS `<=` on numbers; any comparison involving `NaN` is false. -/
def jle : JNum → JNum → Bool
  | nan, _ => false
  | _, nan => false
  | _, inf => true
  | inf, _ => false
  | ninf, _ => true
  | _, ninf => false
  | num a, num b => decide (a ≤ b)

/-- JS `>` on numbers. -/
def jgt (a b : JNum) : Bool := jlt b a

/-- JS `>=` on numbers. -/
def jge (a b : JNum) : Bool := jle b a

/-- JS `Math.abs`. -/
def jabs : JNum → JNum
  | nan => nan
  | inf => inf
  | ninf => inf
  | num q => num |q|

/-- JS truthiness of a number: `0` and `NaN` are falsy. -/
def jTruthy : JNum → Bool
  | nan => false
  | num q => decide (q ≠ 0)
  | _ => true

/-- The rational value of a finite `JNum` (junk `0` on the non-finite
constructors; only ever used under a finiteness hypothesis). -/
def toQ : JNum → ℚ
  | num q => q
  | _ => 0

end JNum

/-- A JavaScript value as it reaches the embedded functions: a number, a
string or a boolean.  Absent / `undefined` / `null` fields are modelled
by `Option.none` at each use site. -/
inductive JSVal where
  | num (n : JNum)
  | str (s : String)
  | bool (b : Bool)
  deriving DecidableEq, Repr

/-- JS truthiness of a value. -/
def truthyV : JSVal → Bool
  | .num n => n.jTruthy
  | .str s => decide (s ≠ "")
  | .bool b => b

/-- The coercion `v || 0` applied to a possibly absent field: `undefined`, `null` and
falsy values fall back to the number literal `0`. -/
def jsOr (v : Option JSVal) : JSVal :=
  match v with
  | some w => if truthyV w then w else .num (.num 0)
  | none => .num (.num 0)

/-- The coalescing `a ?? b`: the first value that is not `null`/`undefined`. -/
def coalesce2 (a b : Option JSVal) : Option JSVal :=
  match a with
  | some v => some v
  | none => b

/-- Decimal digits to a natural number. -/
def digitsToNat (cs : List Char) : ℕ :=
  cs.foldl (fun n c => 10 * n + (c.toNat - 48)) 0

/-- Leading `+`/`-` sign; returns whether the value is negated and the rest. -/
def takeSign : List Char → Bool × List Char
  | '+' :: r => (false, r)
  | '-' :: r => (true, r)
  | cs => (false, cs)

/-- Exponent part after `e`/`E` in `parseFloat`: an optional sign and digits.
An empty digit run means the exponent part is not consumed (JS keeps the
longest valid numeric prefix), which is value-equivalent to exponent 0. -/
def expVal (cs : List Char) : ℤ :=
  let p := takeSign cs
  let ds := p.2.takeWhile Char.isDigit
  if ds.isEmpty then 0
  else if p.1 then -(digitsToNat ds : ℤ) else (digitsToNat ds : ℤ)

/-- JS `parseFloat` on the characters of a string: skip leading whitespace,
optional sign, then `Infinity` or a decimal mantissa with optional
exponent; `NaN` when no digits are found.  Trailing garbage is ignored. -/
def parseFloatChars (cs : List Char) : JNum :=
  let cs1 := cs.dropWhile Char.isWhitespace
  let p := takeSign cs1
  if p.2.take 8 = "Infinity".toList then (if p.1 then .ninf else .inf)
  else
    let ipart := p.2.takeWhile Char.isDigit
    let rest := p.2.dropWhile Char.isDigit
    let fp : List Char × List Char :=
      match rest with
      | '.' :: r => (r.takeWhile Char.isDigit, r.dropWhile Char.isDigit)
      | _ => ([], rest)
    if ipart.isEmpty && fp.1.isEmpty then .nan
    else
      let mant : ℚ := (digitsToNat ipart : ℚ) + (digitsToNat fp.1 : ℚ) / (10 : ℚ) ^ fp.1.length
      let e : ℤ :=
        match fp.2 with
        | 'e' :: r => expVal r
        | 'E' :: r => expVal r
        | _ => 0
      let v : ℚ := mant * (10 : ℚ) ^ e
      .num (if p.1 then -v else v)

/-- JS `parseFloat` of a value.  A number stringifies and re-parses to
itself in this idealized model; booleans stringify to `"true"`/`"false"`,
which do not parse. -/
def parseFloat (v : JSVal) : JNum :=
  match v with
  | .num n => n
  | .str s => parseFloatChars s.toList
  | .bool _ => .nan

/-- Hexadecimal digits to a natural number, stopping at the first
non-hex-digit character; `none` when there is no leading hex digit. -/
def hexToNat (cs : List Char) : Option ℕ :=
  let ds := cs.takeWhile (fun c => c.isDigit || ('a' ≤ c && c ≤ 'f') || ('A' ≤ c && c ≤ 'F'))
  if ds.isEmpty then none
  else some (ds.foldl (fun n c =>
    16 * n + (if c.isDigit then c.toNat - 48
              else if 'a' ≤ c then c.toNat - 87 else c.toNat - 55)) 0)

/-- JS `parseInt` (no radix argument) on the characters of a string:
skip whitespace, optional sign, optional `0x`/`0X` hex prefix, then
digits; `NaN` when no digits follow.  Parsing stops at the first
non-digit (so `"12.9"` gives `12`). -/
def parseIntChars (cs : List Char) : JNum :=
  let cs1 := cs.dropWhile Char.isWhitespace
  let p := takeSign cs1
  match p.2 with
  | '0' :: 'x' :: r =>
      (match hexToNat r with
       | some n => .num (if p.1 then -(n : ℚ) else (n : ℚ))
       | none => .nan)
  | '0' :: 'X' :: r =>
      (match hexToNat r with
       | some n => .num (if p.1 then -(n : ℚ) else (n : ℚ))
       | none => .nan)
  | _ =>
      let ds := p.2.takeWhile Char.isDigit
      if ds.isEmpty then .nan
      else .num (if p.1 then -(digitsToNat ds : ℚ) else (digitsToNat ds : ℚ))

/-- Truncation toward zero of a rational. -/
def qtrunc (q : ℚ) : ℚ := if 0 ≤ q then (⌊q⌋ : ℚ) else (⌈q⌉ : ℚ)

/-- JS `parseInt` of a value.  A finite number stringifies and re-parses
to its truncation toward zero (this idealizes away JS's exponent
notation for magnitudes ≥ 1e21); `NaN` and the infinities stringify to
prefixes with no digits, giving `NaN`, as do booleans. -/
def parseInt (v : JSVal) : JNum :=
  match v with
  | .num (.num q) => .num (qtrunc q)
  | .num _ => .nan
  | .str s => parseIntChars s.toList
  | .bool _ => .nan

/-! ## Risk classifier (`getRisk`) -/

/-- The `{ label, color, reason }` object returned by `getRisk`. -/
structure Risk where
  label : String
  color : String
  reason : String
  deriving DecidableEq, Repr

/-- The `liquidity` sub-object of an insights record. -/
structure Liquidity where
  avg_daily_balance : Option JSVal := none
  nsf_count : Option JSVal := none
  nsf_fees : Option JSVal := none
  days_negative : Option JSVal := none
  deriving DecidableEq, Repr

/-- The `red_flags` sub-object of an insights record. -/
structure RedFlags where
  chargebacks_count : Option JSVal := none
  gambling_crypto_hits : Option JSVal := none
  large_cash_withdrawals : Option JSVal := none
  round_number_cash_deposits : Option JSVal := none
  deriving DecidableEq, Repr

/-- An insights record as consumed by `getRisk` and `aggregateMetrics`.
The elements of `recurring_bills` and `loan_signals` are opaque to the
embedded code (only concatenated), so they are modelled as strings. -/
structure Insight where
  monthly_income : Option JSVal := none
  monthly_expenses : Option JSVal := none
  net_cash_flow : Option JSVal := none
  existing_debt_service : Option JSVal := none
  transaction_count : Option JSVal := none
  liquidity : Option Liquidity := none
  recurring_bills : Option (List String) := none
  loan_signals : Option (List String) := none
  red_flags : Option RedFlags := none
  deriving DecidableEq, Repr

open JNum in
/-- Function `getRisk` (SelectedInsightsPage.js).  A `null`/`undefined` argument is
`none`.  The source also parses `monthly_expenses` into an unused local,
which has no effect and is omitted.  The float literals `0.1` and `0.2`
are the exact rationals `1/10` and `1/5` in this model. -/
def getRisk (insights : Option Insight) : Risk :=
  match insights with
  | none => ⟨"INSUFFICIENT", "default", "No insights"⟩
  | some ins =>
    let income := parseFloat (jsOr ins.monthly_income)
    let cashFlow := parseFloat (jsOr ins.net_cash_flow)
    if jlt income (num 5000) then ⟨"HIGH", "error", "Low monthly income"⟩
    else if jlt cashFlow (num 0) then ⟨"HIGH", "error", "Negative cash flow"⟩
    else if jlt cashFlow (jmul income (num (1/10))) then ⟨"MODERATE", "warning", "Low cash flow margin"⟩
    else if jgt cashFlow (jmul income (num (1/5))) then ⟨"LOW", "success", "Strong cash flow"⟩
    else ⟨"MODERATE", "warning", "Adequate cash flow"⟩

/-! ## Bucket segments (`buildSegmentsFromBreakdowns`) -/

/-- One element of an insights record's `bucket_breakdown` array, as read
by `buildSegmentsFromBreakdowns` (which only touches `bucket` and
`total_amount`).  Buckets coming from the API are strings. -/
structure Breakdown where
  bucket : Option String := none
  total_amount : Option JSVal := none
  deriving DecidableEq, Repr

/-- The expression `b?.bucket || 'OTHER'` for a possibly `null` array element. -/
def bucketOf (b : Option Breakdown) : String :=
  match b with
  | none => "OTHER"
  | some bb =>
    match bb.bucket with
    | some s => if s = "" then "OTHER" else s
    | none => "OTHER"

open JNum in
/-- The numeric contribution of one breakdown element:
`typeof b?.total_amount === 'string' ? parseFloat(b.total_amount) : (b?.total_amount || 0)`,
followed by the numeric coercion `+` applies (booleans become `0`/`1`;
a falsy non-string value is already replaced by `0` by `|| 0`). -/
def amountOf (b : Option Breakdown) : JNum :=
  match b with
  | none => num 0
  | some bb =>
    match bb.total_amount with
    | none => num 0
    | some (.str s) => parseFloatChars s.toList
    | some (.num n) => if n.jTruthy then n else num 0
    | some (.bool bv) => if bv then num 1 else num 0

open JNum in
/-- The update `totalsByBucket[bucket] = (totalsByBucket[bucket] || 0) + amount`,
on an association list in insertion order (string-keyed JS objects
enumerate in insertion order).  Note the `|| 0`: a stored falsy total
(`0` or `NaN`) is replaced by `0` before the addition. -/
def upsert (m : List (String × JNum)) (k : String) (v : JNum) : List (String × JNum) :=
  match m with
  | [] => [(k, v)]
  | (k0, v0) :: rest =>
    if k0 = k then (k0, jadd (if v0.jTruthy then v0 else num 0) v) :: rest
    else (k0, v0) :: upsert rest k v

open JNum in
/-- One iteration of the `for (const b of breakdowns)` loop: update
`totalsByBucket` and `overall`. -/
def gStep (acc : List (String × JNum) × JNum) (b : Option Breakdown) :
    List (String × JNum) × JNum :=
  (upsert acc.1 (bucketOf b) (amountOf b), jadd acc.2 (amountOf b))

open JNum in
/-- The single loop of `buildSegmentsFromBreakdowns`: builds
`totalsByBucket` and `overall` in one pass. -/
def groupFold (breakdowns : List (Option Breakdown)) : List (String × JNum) × JNum :=
  breakdowns.foldl gStep ([], num 0)

/-- The loop's `overall` accumulator. -/
def overallOf (breakdowns : List (Option Breakdown)) : JNum := (groupFold breakdowns).2

/-- One `{ bucket, pct }` segment. -/
structure Segment where
  bucket : String
  pct : JNum
  deriving DecidableEq, Repr

open JNum in
/-- One segment of shape bucket plus `pct = (amount / overall) * 100`. -/
def segOf (overall : JNum) (e : String × JNum) : Segment :=
  ⟨e.1, jmul (jdiv e.2 overall) (num 100)⟩

open JNum in
/-- Insert into a list sorted by descending `pct`, modelling
`.sort((a, b) => b.pct - a.pct)`: `x` goes in front of the first element
whose `pct` is strictly below `x.pct` (comparisons against `NaN` keep
the existing order, as a `NaN` comparator result changes nothing).
Every claim below only depends on the result being a permutation. -/
def insertSeg (x : Segment) : List Segment → List Segment
  | [] => [x]
  | y :: rest => if jlt y.pct x.pct then x :: y :: rest else y :: insertSeg x rest

/-- Sort segments by descending `pct`. -/
def sortSegs : List Segment → List Segment
  | [] => []
  | x :: rest => insertSeg x (sortSegs rest)

open JNum in
/-- Function `buildSegmentsFromBreakdowns` (SelectedInsightsPage.js). -/
def buildSegmentsFromBreakdowns (breakdowns : List (Option Breakdown)) : List Segment :=
  let g := groupFold breakdowns
  if jle g.2 (num 0) then []
  else sortSegs (g.1.map (segOf g.2))

/-! ## Metrics aggregation (`aggregateMetrics`) -/

/-- The running red-flag totals. -/
structure RedTotals where
  chargebacks_count : JNum
  gambling_crypto_hits : JNum
  large_cash_withdrawals : JNum
  round_number_cash_deposits : JNum
  deriving DecidableEq, Repr

/-- The `totals` accumulator of `aggregateMetrics` before the derived
metrics are attached. -/
structure Totals where
  monthly_income : JNum
  monthly_expenses : JNum
  net_cash_flow : JNum
  existing_debt_service : JNum
  transaction_count : JNum
  avg_daily_balance : JNum
  nsf_count : JNum
  nsf_fees : JNum
  days_negative : JNum
  recurring_bills : List String
  loan_signals : List String
  red_flags : RedTotals
  deriving DecidableEq, Repr

open JNum in
/-- The initial `totals` object (all zeros and empty lists). -/
def initTotals : Totals :=
  ⟨num 0, num 0, num 0, num 0, num 0, num 0, num 0, num 0, num 0, [], [], ⟨num 0, num 0, num 0, num 0⟩⟩

open JNum in
/-- One iteration of the `allInsights.forEach` loop: a `null` record is
skipped, otherwise every field of `totals` receives its contribution.
Each mutation of the source writes a distinct field once, so the
sequential `+=` statements are rendered as a single record update. -/
def aggStep (t : Totals) (oi : Option Insight) : Totals :=
  match oi with
  | none => t
  | some i =>
    { monthly_income := jadd t.monthly_income (parseFloat (jsOr i.monthly_income))
      monthly_expenses := jadd t.monthly_expenses (parseFloat (jsOr i.monthly_expenses))
      net_cash_flow := jadd t.net_cash_flow (parseFloat (jsOr i.net_cash_flow))
      existing_debt_service := jadd t.existing_debt_service (parseFloat (jsOr i.existing_debt_service))
      transaction_count := jadd t.transaction_count (parseInt (jsOr i.transaction_count))
      avg_daily_balance :=
        match i.liquidity with
        | some lq => jadd t.avg_daily_balance (parseFloat (jsOr lq.avg_daily_balance))
        | none => t.avg_daily_balance
      nsf_count :=
        match i.liquidity with
        | some lq => jadd t.nsf_count (parseInt (jsOr lq.nsf_count))
        | none => t.nsf_count
      nsf_fees :=
        match i.liquidity with
        | some lq => jadd t.nsf_fees (parseFloat (jsOr lq.nsf_fees))
        | none => t.nsf_fees
      days_negative :=
        match i.liquidity with
        | some lq => jadd t.days_negative (parseInt (jsOr lq.days_negative))
        | none => t.days_negative
      recurring_bills :=
        match i.recurring_bills with
        | some bs => t.recurring_bills ++ bs
        | none => t.recurring_bills
      loan_signals :=
        match i.loan_signals with
        | some ls => t.loan_signals ++ ls
        | none => t.loan_signals
      red_flags :=
        match i.red_flags with
        | some rf =>
          ⟨jadd t.red_flags.chargebacks_count (parseInt (jsOr rf.chargebacks_count)),
           jadd t.red_flags.gambling_crypto_hits (parseInt (jsOr rf.gambling_crypto_hits)),
           jadd t.red_flags.large_cash_withdrawals (parseInt (jsOr rf.large_cash_withdrawals)),
           jadd t.red_flags.round_number_cash_deposits (parseInt (jsOr rf.round_number_cash_deposits))⟩
        | none => t.red_flags }

/-- The `totals` object after the loop. -/
def aggTotals (l : List (Option Insight)) : Totals := l.foldl aggStep initTotals

/-- The loop's `validCount` variable: one increment per non-null record. -/
def validCount : List (Option Insight) → ℕ
  | [] => 0
  | none :: rest => validCount rest
  | some _ :: rest => validCount rest + 1

/-- The value `aggregateMetrics` returns for a non-empty input: `totals`
extended with the two derived metrics. -/
structure Aggregated extends Totals where
  cash_flow_margin : JNum
  dscr_existing : Option JNum
  deriving DecidableEq, Repr

open JNum in
/-- The epilogue of `aggregateMetrics`: divide `avg_daily_balance` by
`validCount` when positive, then attach `cash_flow_margin` and
`dscr_existing` (a JS `null` DSCR is `none`). -/
def finalizeAgg (l : List (Option Insight)) : Aggregated :=
  let t0 := aggTotals l
  let vc := validCount l
  let t :=
    if 0 < vc then
      { t0 with avg_daily_balance := jdiv t0.avg_daily_balance (num (vc : ℚ)) }
    else t0
  { t with
    cash_flow_margin :=
      if jgt t.monthly_income (num 0) then jmul (jdiv t.net_cash_flow t.monthly_income) (num 100)
      else num 0
    dscr_existing :=
      if jgt t.existing_debt_service (num 0) then some (jdiv t.net_cash_flow t.existing_debt_service)
      else none }

/-- Function `aggregateMetrics` (SelectedInsightsPage.js): `null` on an empty
input array, otherwise the aggregated totals. -/
def aggregateMetrics (l : List (Option Insight)) : Option Aggregated :=
  if l.isEmpty then none else some (finalizeAgg l)

/-! ## Transaction normalization (`normalizeTransaction`) -/

/-- The `category` field of a raw transaction: either a primitive value
or a `{ value, name }`-shaped object. -/
inductive CatVal where
  | prim (v : JSVal)
  | obj (value : Option JSVal) (name : Option JSVal)
  deriving DecidableEq, Repr

/-- A raw transaction record, with every alternate field name the
normalizer coalesces over. -/
structure RawTxn where
  transaction_amount : Option JSVal := none
  amount : Option JSVal := none
  transaction_date : Option JSVal := none
  date : Option JSVal := none
  transaction_description : Option JSVal := none
  description : Option JSVal := none
  transaction_type : Option JSVal := none
  transaction_id : Option JSVal := none
  id : Option JSVal := none
  category : Option CatVal := none
  deriving DecidableEq, Repr

open JNum in
/-- The value `parseFloat(txn.transaction_amount ?? txn.amount ?? 0)`. -/
def rawAmount (txn : RawTxn) : JNum :=
  parseFloat ((coalesce2 txn.transaction_amount txn.amount).getD (.num (num 0)))

/-- The value `txn.transaction_date ?? txn.date ?? null`. -/
def dateV (txn : RawTxn) : Option JSVal :=
  coalesce2 txn.transaction_date txn.date

/-- The value `txn.transaction_description ?? txn.description ?? ''`. -/
def descV (txn : RawTxn) : JSVal :=
  (coalesce2 txn.transaction_description txn.description).getD (.str "")

open JNum in
/-- The value `txn.transaction_type ?? (rawAmount < 0 ? 'debit' : 'credit')`. -/
def typeV (txn : RawTxn) : JSVal :=
  txn.transaction_type.getD (if jlt (rawAmount txn) (num 0) then .str "debit" else .str "credit")

/-- The category coercion: an object is replaced by
`category.value ?? category.name ?? 'other'`, and any remaining falsy
value becomes `'other'`. -/
def categoryV (txn : RawTxn) : JSVal :=
  match txn.category with
  | none => .str "other"
  | some (.prim v) => if truthyV v then v else .str "other"
  | some (.obj value name) =>
    let c := (coalesce2 value name).getD (.str "other")
    if truthyV c then c else .str "other"

/-- The value `Math.abs(rawAmount)`. -/
def amountV (txn : RawTxn) : JNum := (rawAmount txn).jabs

open JNum in
/-- The value `type === 'debit' ? -Math.abs(amount) : Math.abs(amount)`. -/
def signedAmountV (txn : RawTxn) : JNum :=
  if typeV txn = .str "debit" then jneg (amountV txn).jabs else (amountV txn).jabs

/-- String conversion used inside the generated fallback id template.
Rational formatting idealizes JS number-to-string; no claim depends on
the exact text of the generated id. -/
def jsDisplay : JSVal → String
  | .str s => s
  | .bool b => if b then "true" else "false"
  | .num .nan => "NaN"
  | .num .inf => "Infinity"
  | .num .ninf => "-Infinity"
  | .num (.num q) => toString q

/-- The id expression
`txn.transaction_id ?? txn.id ?? dId-(date ?? 'na')-description.slice(0,20)-rand`.
Building the fallback calls `.slice` on `description`; when the coalesced
description is not a string this is a `TypeError` (numbers and booleans
have no `slice` method), modelled as the error case.  `rand` stands for
`Math.random().toString(36).slice(2, 7)`. -/
def idV (txn : RawTxn) (documentId rand : String) : Except String JSVal :=
  match txn.transaction_id with
  | some v => .ok v
  | none =>
    match txn.id with
    | some v => .ok v
    | none =>
      match descV txn with
      | .str s =>
        .ok (.str (documentId ++ "-" ++
              (match dateV txn with
               | some v => jsDisplay v
               | none => "na") ++ "-" ++ s.take 20 ++ "-" ++ rand))
      | _ => .error "TypeError: description.slice is not a function"

/-- The normalized transaction object. -/
structure NormTxn where
  id : JSVal
  documentId : String
  date : Option JSVal
  description : JSVal
  amount : JNum
  signedAmount : JNum
  type : JSVal
  category : JSVal
  deriving DecidableEq, Repr

/-- Function `normalizeTransaction` (CombinedTransactionsDialog.js and
SelectedTransactionsPage.js).  The only way the source can throw is the
`description.slice(0, 20)` call inside the fallback-id template. -/
def normalizeTransaction (txn : RawTxn) (documentId rand : String) : Except String NormTxn :=
  match idV txn documentId rand with
  | .ok i =>
    .ok { id := i
          documentId := documentId
          date := dateV txn
          description := descV txn
          amount := amountV txn
          signedAmount := signedAmountV txn
          type := typeV txn
          category := categoryV txn }
  | .error e => .error e

/-! ## Helper lemmas -/

open JNum

theorem jadd_zero (a : JNum) : jadd a (num 0) = a := by
  cases a <;> simp [jadd]

theorem jabs_jabs (a : JNum) : a.jabs.jabs = a.jabs := by
  cases a <;> simp [jabs, abs_abs]

/-! ## Claim C4: null metrics input -/

/-- Claim C4: a missing or `null` metrics input makes the risk
classifier return the label `INSUFFICIENT` with color `default` and
reason `No insights`. -/
theorem getRisk_null_insufficient :
    getRisk none = ⟨"INSUFFICIENT", "default", "No insights"⟩ := rfl

/-! ## Claim C1: the risk threshold chain -/

/-- Claim C1: for a non-null metrics input whose parsed monthly income
and net cash flow are the (finite) numbers `qI` and `qC`, `getRisk`
checks the thresholds in this fixed priority order and returns the
first match: income below 5000 gives HIGH "Low monthly income";
otherwise negative cash flow gives HIGH "Negative cash flow";
otherwise cash flow below `income * 0.1` gives MODERATE "Low cash flow
margin"; otherwise cash flow above `income * 0.2` gives LOW "Strong
cash flow"; otherwise MODERATE "Adequate cash flow". -/
theorem getRisk_threshold_chain (ins : Insight) (qI qC : ℚ)
    (hI : parseFloat (jsOr ins.monthly_income) = num qI)
    (hC : parseFloat (jsOr ins.net_cash_flow) = num qC) :
    (qI < 5000 → getRisk (some ins) = ⟨"HIGH", "error", "Low monthly income"⟩) ∧
    (5000 ≤ qI → qC < 0 → getRisk (some ins) = ⟨"HIGH", "error", "Negative cash flow"⟩) ∧
    (5000 ≤ qI → 0 ≤ qC → qC < qI * (1/10) →
      getRisk (some ins) = ⟨"MODERATE", "warning", "Low cash flow margin"⟩) ∧
    (5000 ≤ qI → 0 ≤ qC → qI * (1/10) ≤ qC → qI * (1/5) < qC →
      getRisk (some ins) = ⟨"LOW", "success", "Strong cash flow"⟩) ∧
    (5000 ≤ qI → 0 ≤ qC → qI * (1/10) ≤ qC → qC ≤ qI * (1/5) →
      getRisk (some ins) = ⟨"MODERATE", "warning", "Adequate cash flow"⟩) := by
  have e : getRisk (some ins) =
      (if qI < 5000 then ⟨"HIGH", "error", "Low monthly income"⟩
       else if qC < 0 then ⟨"HIGH", "error", "Negative cash flow"⟩
       else if qC < qI * (1/10) then ⟨"MODERATE", "warning", "Low cash flow margin"⟩
       else if qI * (1/5) < qC then ⟨"LOW", "success", "Strong cash flow"⟩
       else ⟨"MODERATE", "warning", "Adequate cash flow"⟩) := by
    simp only [getRisk, hI, hC, jlt, jgt, jmul, decide_eq_true_eq]
  refine ⟨fun h1 => ?_, fun h1 h2 => ?_, fun h1 h2 h3 => ?_,
    fun h1 h2 h3 h4 => ?_, fun h1 h2 h3 h4 => ?_⟩
  · rw [e, if_pos h1]
  · rw [e, if_neg (not_lt.2 h1), if_pos h2]
  · rw [e, if_neg (not_lt.2 h1), if_neg (not_lt.2 h2), if_pos h3]
  · rw [e, if_neg (not_lt.2 h1), if_neg (not_lt.2 h2), if_neg (not_lt.2 h3), if_pos h4]
  · rw [e, if_neg (not_lt.2 h1), if_neg (not_lt.2 h2), if_neg (not_lt.2 h3), if_neg (not_lt.2 h4)]

/-- Witness for C1, on the spec's own example: monthly income 10000 and
net cash flow 2500 classify as LOW (margin 25% above 20%). -/
theorem getRisk_threshold_chain_witness :
    getRisk (some { monthly_income := some (.num (num 10000)),
                    net_cash_flow := some (.num (num 2500)) }) =
      ⟨"LOW", "success", "Strong cash flow"⟩ :=
  (getRisk_threshold_chain _ 10000 2500 (by decide) (by decide)).2.2.2.1
    (by norm_num) (by norm_num) (by norm_num) (by norm_num)

/-! ## Claim C6: empty and non-positive bucket totals -/

/-- Claim C6: `buildSegmentsFromBreakdowns` returns the empty segment
list on an empty breakdown list, and on every breakdown list whose
overall total is a number `q ≤ 0` (the division by the total is
guarded). -/
theorem buildSegments_guard :
    buildSegmentsFromBreakdowns [] = [] ∧
    ∀ (bs : List (Option Breakdown)) (q : ℚ), overallOf bs = num q → q ≤ 0 →
      buildSegmentsFromBreakdowns bs = [] := by
  refine ⟨rfl, fun bs q hq hle => ?_⟩
  have hg : jle (groupFold bs).2 (num 0) = true := by
    rw [show (groupFold bs).2 = overallOf bs from rfl, hq]
    simp [jle, hle]
  simp [buildSegmentsFromBreakdowns, hg]

/-- Witness for C6: a single breakdown of amount `-5` has overall total
`-5 ≤ 0` and yields no segments. -/
theorem buildSegments_guard_witness :
    buildSegmentsFromBreakdowns [some ⟨some "A", some (.num (num (-5)))⟩] = [] :=
  buildSegments_guard.2 _ (-5)
    (by norm_num [overallOf, groupFold, gStep, upsert, bucketOf, amountOf, jadd, jTruthy])
    (by norm_num)

/-! ## Normalizer lemmas -/

/-- Every field of a successfully normalized transaction except `id`
equals the corresponding named sub-expression of the source. -/
theorem norm_ok_core {txn : RawTxn} {d r : String} {t : NormTxn}
    (h : normalizeTransaction txn d r = .ok t) :
    t.documentId = d ∧ t.date = dateV txn ∧ t.description = descV txn ∧
    t.amount = amountV txn ∧ t.signedAmount = signedAmountV txn ∧
    t.type = typeV txn ∧ t.category = categoryV txn := by
  unfold normalizeTransaction at h
  cases hid : idV txn d r with
  | ok i =>
    rw [hid] at h
    simp only [Except.ok.injEq] at h
    rw [← h]
    exact ⟨rfl, rfl, rfl, rfl, rfl, rfl, rfl⟩
  | error e => rw [hid] at h; cases h

/-! ## Claim C9: type inference -/

/-- Claim C9: in a normalized transaction, the `type` is the raw
`transaction_type` passed through unchanged when that field is present,
and otherwise is inferred as `debit` exactly when the parsed raw amount
is negative (in the JS sense, so `NaN` infers `credit`) and as `credit`
otherwise. -/
theorem normalize_type_inference (txn : RawTxn) (d r : String) (t : NormTxn)
    (h : normalizeTransaction txn d r = .ok t) :
    (txn.transaction_type = none →
      t.type = (if jlt (rawAmount txn) (num 0) then .str "debit" else .str "credit")) ∧
    (∀ v, txn.transaction_type = some v → t.type = v) := by
  have ht : t.type = typeV txn := (norm_ok_core h).2.2.2.2.2.1
  constructor
  · intro hnone
    rw [ht]
    simp [typeV, hnone]
  · intro v hv
    rw [ht]
    simp [typeV, hv]

/-- Witness for C9: a raw amount of `-7` with no type field infers
`debit`. -/
theorem normalize_type_inference_witness :
    (⟨.str "doc-na--r0", "doc", none, .str "", num 7, num (-7), .str "debit",
      .str "other"⟩ : NormTxn).type =
      (if jlt (rawAmount { transaction_amount := some (.num (num (-7))) }) (num 0)
       then .str "debit" else .str "credit") :=
  (normalize_type_inference { transaction_amount := some (.num (num (-7))) } "doc" "r0"
    _ rfl).1 rfl

/-! ## Claim C10: determinism up to the random id suffix -/

/-- Claim C10: `normalizeTransaction` is deterministic in every output
field except `id`: two runs on the same raw transaction and document id
(with possibly different random suffixes) succeed or fail together and
agree on `documentId`, `date`, `description`, `amount`, `signedAmount`,
`type` and `category`; and when the raw transaction carries a
`transaction_id` or `id` field the two outputs are fully identical. -/
theorem normalize_deterministic (txn : RawTxn) (d r1 r2 : String) :
    (∀ t1 t2, normalizeTransaction txn d r1 = .ok t1 →
      normalizeTransaction txn d r2 = .ok t2 →
      t1.documentId = t2.documentId ∧ t1.date = t2.date ∧
      t1.description = t2.description ∧ t1.amount = t2.amount ∧
      t1.signedAmount = t2.signedAmount ∧ t1.type = t2.type ∧
      t1.category = t2.category) ∧
    ((txn.transaction_id ≠ none ∨ txn.id ≠ none) →
      normalizeTransaction txn d r1 = normalizeTransaction txn d r2) := by
  constructor
  · intro t1 t2 h1 h2
    obtain ⟨a1, b1, c1, d1, e1, f1, g1⟩ := norm_ok_core h1
    obtain ⟨a2, b2, c2, d2, e2, f2, g2⟩ := norm_ok_core h2
    exact ⟨a1.trans a2.symm, b1.trans b2.symm, c1.trans c2.symm, d1.trans d2.symm,
      e1.trans e2.symm, f1.trans f2.symm, g1.trans g2.symm⟩
  · intro hid
    cases hti : txn.transaction_id with
    | some v => simp [normalizeTransaction, idV, hti]
    | none =>
      cases hi : txn.id with
      | some v => simp [normalizeTransaction, idV, hti, hi]
      | none => rcases hid with h | h
                · exact absurd hti h
                · exact absurd hi h

/-- Witness for C10: with an explicit `transaction_id`, two runs with
different random suffixes produce identical results. -/
theorem normalize_deterministic_witness :
    normalizeTransaction { transaction_id := some (.str "t1") } "d" "ra" =
      normalizeTransaction { transaction_id := some (.str "t1") } "d" "rb" :=
  (normalize_deterministic { transaction_id := some (.str "t1") } "d" "ra" "rb").2
    (Or.inl (by simp))

theorem jabs_neg (a : JNum) : a.jneg.jabs = a.jabs := by
  cases a <;> simp [jneg, jabs, abs_neg]

theorem jle_jneg_jabs (a : JNum) (h : a.jabs ≠ nan) : jle a.jabs.jneg (num 0) = true := by
  cases a with
  | nan => simp [jabs] at h
  | inf => rfl
  | ninf => rfl
  | num q => simp [jabs, jneg, jle, neg_nonpos, abs_nonneg]

theorem jge_jabs (a : JNum) (h : a.jabs ≠ nan) : jge a.jabs (num 0) = true := by
  cases a with
  | nan => simp [jabs] at h
  | inf => rfl
  | ninf => rfl
  | num q => simp [jge, jle, jabs, abs_nonneg]

/-! ## Claim C2 (corrected): totality and the returned amount -/

/-- Counterexample to claim C2 as stated.  A present but unparseable
amount (`transaction_amount = "abc"`) normalizes to `amount = NaN`,
which neither satisfies `amount ≥ 0` nor defaults to `0`; and a raw
transaction with no id whose `description` field holds a number makes
the fallback-id template call `description.slice`, raising a
`TypeError`, so `normalize` can also raise. -/
theorem normalize_c2_counterexample :
    normalizeTransaction { transaction_amount := some (.str "abc") } "doc" "r0" =
      .ok ⟨.str "doc-na--r0", "doc", none, .str "", .nan, .nan, .str "credit", .str "other"⟩ ∧
    jge JNum.nan (num 0) = false ∧ JNum.nan ≠ num 0 ∧
    normalizeTransaction { transaction_description := some (.num (num 5)) } "doc" "r0" =
      .error "TypeError: description.slice is not a function" :=
  ⟨rfl, rfl, by decide, rfl⟩

/-- Claim C2 as amended: `normalizeTransaction` returns a transaction
(raising nothing) whenever the raw input carries a `transaction_id` or
`id`, or its coalesced description is a string (which includes the
missing-description default `''`); the returned amount is
`|parseFloat(raw amount)|`: it defaults to `0` when both amount fields
are missing, equals `|q|` (hence is ≥ 0) whenever the field parses to a
number `q`, and is `NaN` exactly on a present but unparseable value. -/
theorem normalize_amount_spec (txn : RawTxn) (d r : String) :
    ((txn.transaction_id ≠ none ∨ txn.id ≠ none ∨ ∃ s, descV txn = .str s) →
      ∃ t, normalizeTransaction txn d r = .ok t) ∧
    (∀ t, normalizeTransaction txn d r = .ok t →
      t.amount = (rawAmount txn).jabs ∧
      (txn.transaction_amount = none → txn.amount = none → t.amount = num 0) ∧
      (∀ q, rawAmount txn = num q → t.amount = num |q|) ∧
      (∀ q, t.amount = num q → 0 ≤ q) ∧
      (rawAmount txn = .nan → t.amount = .nan)) := by
  constructor
  · intro hok
    cases hti : txn.transaction_id with
    | some v =>
      have hid : idV txn d r = .ok v := by unfold idV; rw [hti]
      exact ⟨_, by unfold normalizeTransaction; rw [hid]⟩
    | none =>
      cases hi : txn.id with
      | some v =>
        have hid : idV txn d r = .ok v := by unfold idV; rw [hti, hi]
        exact ⟨_, by unfold normalizeTransaction; rw [hid]⟩
      | none =>
        rcases hok with h | h | ⟨s, hs⟩
        · exact absurd hti h
        · exact absurd hi h
        · have hid : idV txn d r = .ok (.str (d ++ "-" ++
              (match dateV txn with
               | some v => jsDisplay v
               | none => "na") ++ "-" ++ s.take 20 ++ "-" ++ r)) := by
            unfold idV; rw [hti, hi, hs]
          exact ⟨_, by unfold normalizeTransaction; rw [hid]⟩
  · intro t h
    have ha : t.amount = amountV txn := (norm_ok_core h).2.2.2.1
    refine ⟨ha, ?_, ?_, ?_, ?_⟩
    · intro h1 h2
      rw [ha]
      simp [amountV, rawAmount, coalesce2, h1, h2, parseFloat, jabs, jsOr]
    · intro q hq
      rw [ha, show amountV txn = (rawAmount txn).jabs from rfl, hq]
      rfl
    · intro q hq
      rw [ha, show amountV txn = (rawAmount txn).jabs from rfl] at hq
      cases hr : rawAmount txn <;> rw [hr] at hq <;> simp [jabs] at hq
      rw [← hq]
      exact abs_nonneg _
    · intro hq
      rw [ha, show amountV txn = (rawAmount txn).jabs from rfl, hq]
      rfl

/-- Witness for the amended C2: the empty raw transaction normalizes
successfully with amount `0`. -/
theorem normalize_amount_spec_witness :
    ∃ t, normalizeTransaction ({} : RawTxn) "d" "r" = .ok t ∧ t.amount = num 0 := by
  obtain ⟨t, ht⟩ := (normalize_amount_spec {} "d" "r").1 (Or.inr (Or.inr ⟨"", rfl⟩))
  exact ⟨t, ht, ((normalize_amount_spec {} "d" "r").2 t ht).2.1 rfl rfl⟩

/-! ## Claim C8 (corrected): the signed-amount invariant -/

/-- Counterexample to claim C8 as stated: with an unparseable amount and
type `debit`, the normalized transaction has `signedAmount = NaN`,
which does not satisfy `signedAmount ≤ 0`. -/
theorem normalize_c8_counterexample :
    normalizeTransaction { transaction_amount := some (.str "abc"),
                           transaction_type := some (.str "debit"),
                           transaction_id := some (.str "t1") } "d" "r" =
      .ok ⟨.str "t1", "d", none, .str "", .nan, .nan, .str "debit", .str "other"⟩ ∧
    jle JNum.nan (num 0) = false :=
  ⟨rfl, rfl⟩

/-- Claim C8 as amended: in every normalized transaction,
`signedAmount = -amount` when the type is `debit` and `signedAmount =
amount` otherwise, and `|signedAmount| = amount`; the sign comparisons
(`signedAmount ≤ 0` for debits, `≥ 0` otherwise) hold whenever the
amount is not `NaN`. -/
theorem normalize_signed_amount (txn : RawTxn) (d r : String) (t : NormTxn)
    (h : normalizeTransaction txn d r = .ok t) :
    t.signedAmount = (if t.type = .str "debit" then t.amount.jneg else t.amount) ∧
    t.signedAmount.jabs = t.amount ∧
    (t.amount ≠ .nan →
      (t.type = .str "debit" → jle t.signedAmount (num 0) = true) ∧
      (t.type ≠ .str "debit" → jge t.signedAmount (num 0) = true)) := by
  obtain ⟨-, -, -, ha, hs, htp, -⟩ := norm_ok_core h
  refine ⟨?_, ?_, fun hnan => ⟨fun hdeb => ?_, fun hdeb => ?_⟩⟩
  · rw [hs, ha, htp]
    simp only [signedAmountV, amountV, jabs_jabs]
  · rw [hs, ha]
    by_cases hd : typeV txn = .str "debit"
    · simp only [signedAmountV, amountV, if_pos hd, jabs_jabs, jabs_neg]
    · simp only [signedAmountV, amountV, if_neg hd, jabs_jabs]
  · rw [htp] at hdeb
    rw [ha] at hnan
    rw [hs]
    simp only [signedAmountV, amountV, if_pos hdeb, jabs_jabs]
    exact jle_jneg_jabs _ hnan
  · rw [htp] at hdeb
    rw [ha] at hnan
    rw [hs]
    simp only [signedAmountV, amountV, if_neg hdeb, jabs_jabs]
    exact jge_jabs _ hnan

/-- Witness for the amended C8: a debit of parsed amount `-7` has
`signedAmount ≤ 0`. -/
theorem normalize_signed_amount_witness :
    ∃ t, normalizeTransaction { transaction_amount := some (.num (num (-7))),
                                transaction_type := some (.str "debit"),
                                transaction_id := some (.str "tx") } "d" "r" = .ok t ∧
      jle t.signedAmount (num 0) = true := by
  refine ⟨_, rfl, ?_⟩
  have h := normalize_signed_amount { transaction_amount := some (.num (num (-7))),
                                      transaction_type := some (.str "debit"),
                                      transaction_id := some (.str "tx") } "d" "r" _ rfl
  exact (h.2.2 (by simp [amountV, rawAmount, coalesce2, parseFloat, jabs])).1 rfl

/-! ## Aggregation sums

Reference definitions for claims C3 and C7: the per-record
contribution of each field, summed (respectively concatenated) over the
non-null records in list order, exactly as the `forEach` loop visits
them. -/

open JNum in
/-- Sum of a per-record numeric contribution over the non-null records. -/
def sumBy (f : Insight → JNum) (l : List (Option Insight)) : JNum :=
  l.foldl (fun a oi => match oi with | none => a | some i => jadd a (f i)) (num 0)

/-- Concatenation of a per-record list contribution over the non-null
records. -/
def concatBy (f : Insight → List String) (l : List (Option Insight)) : List String :=
  l.foldl (fun a oi => match oi with | none => a | some i => a ++ f i) []

open JNum in
def incomeOf (i : Insight) : JNum := parseFloat (jsOr i.monthly_income)

open JNum in
def expensesOf (i : Insight) : JNum := parseFloat (jsOr i.monthly_expenses)

open JNum in
def netOf (i : Insight) : JNum := parseFloat (jsOr i.net_cash_flow)

open JNum in
def debtOf (i : Insight) : JNum := parseFloat (jsOr i.existing_debt_service)

open JNum in
def txnCountOf (i : Insight) : JNum := parseInt (jsOr i.transaction_count)

open JNum in
/-- Contribution to the `avg_daily_balance` accumulator: records without
a `liquidity` object contribute nothing. -/
def avgBalOf (i : Insight) : JNum :=
  match i.liquidity with
  | some lq => parseFloat (jsOr lq.avg_daily_balance)
  | none => num 0

open JNum in
def nsfCountOf (i : Insight) : JNum :=
  match i.liquidity with
  | some lq => parseInt (jsOr lq.nsf_count)
  | none => num 0

open JNum in
def nsfFeesOf (i : Insight) : JNum :=
  match i.liquidity with
  | some lq => parseFloat (jsOr lq.nsf_fees)
  | none => num 0

open JNum in
def daysNegOf (i : Insight) : JNum :=
  match i.liquidity with
  | some lq => parseInt (jsOr lq.days_negative)
  | none => num 0

open JNum in
def cbOf (i : Insight) : JNum :=
  match i.red_flags with
  | some rf => parseInt (jsOr rf.chargebacks_count)
  | none => num 0

open JNum in
def gamblingOf (i : Insight) : JNum :=
  match i.red_flags with
  | some rf => parseInt (jsOr rf.gambling_crypto_hits)
  | none => num 0

open JNum in
def cashWdOf (i : Insight) : JNum :=
  match i.red_flags with
  | some rf => parseInt (jsOr rf.large_cash_withdrawals)
  | none => num 0

open JNum in
def roundDepOf (i : Insight) : JNum :=
  match i.red_flags with
  | some rf => parseInt (jsOr rf.round_number_cash_deposits)
  | none => num 0

def billsOf (i : Insight) : List String := i.recurring_bills.getD []

def signalsOf (i : Insight) : List String := i.loan_signals.getD []

/-- Generic projection of the aggregation loop onto one numeric field:
if one step adds `f i` to the field read by `g`, the whole fold computes
the corresponding running sum. -/
theorem foldl_aggStep_num (g : Totals → JNum) (f : Insight → JNum)
    (hg : ∀ t i, g (aggStep t (some i)) = jadd (g t) (f i)) :
    ∀ (l : List (Option Insight)) (t0 : Totals),
      g (l.foldl aggStep t0) =
        l.foldl (fun a oi => match oi with | none => a | some i => jadd a (f i)) (g t0) := by
  intro l
  induction l with
  | nil => intro t0; rfl
  | cons oi rest ih =>
    intro t0
    cases oi with
    | none => exact ih t0
    | some i =>
      rw [List.foldl_cons, List.foldl_cons, ih (aggStep t0 (some i)), hg]

/-- Generic projection of the aggregation loop onto one list field. -/
theorem foldl_aggStep_list (g : Totals → List String) (f : Insight → List String)
    (hg : ∀ t i, g (aggStep t (some i)) = g t ++ f i) :
    ∀ (l : List (Option Insight)) (t0 : Totals),
      g (l.foldl aggStep t0) =
        l.foldl (fun a oi => match oi with | none => a | some i => a ++ f i) (g t0) := by
  intro l
  induction l with
  | nil => intro t0; rfl
  | cons oi rest ih =>
    intro t0
    cases oi with
    | none => exact ih t0
    | some i =>
      rw [List.foldl_cons, List.foldl_cons, ih (aggStep t0 (some i)), hg]

/-- A list of only-null records leaves the accumulator untouched. -/
theorem foldl_aggStep_all_none :
    ∀ (l : List (Option Insight)), validCount l = 0 → ∀ t0, l.foldl aggStep t0 = t0 := by
  intro l
  induction l with
  | nil => intro _ t0; rfl
  | cons oi rest ih =>
    intro h t0
    cases oi with
    | none => exact ih (by simpa [validCount] using h) t0
    | some i => exact absurd h (by simp [validCount])

theorem aggTotals_income (l : List (Option Insight)) :
    (aggTotals l).monthly_income = sumBy incomeOf l :=
  foldl_aggStep_num (fun t => t.monthly_income) incomeOf (fun _ _ => rfl) l initTotals

theorem aggTotals_expenses (l : List (Option Insight)) :
    (aggTotals l).monthly_expenses = sumBy expensesOf l :=
  foldl_aggStep_num (fun t => t.monthly_expenses) expensesOf (fun _ _ => rfl) l initTotals

theorem aggTotals_net (l : List (Option Insight)) :
    (aggTotals l).net_cash_flow = sumBy netOf l :=
  foldl_aggStep_num (fun t => t.net_cash_flow) netOf (fun _ _ => rfl) l initTotals

theorem aggTotals_debt (l : List (Option Insight)) :
    (aggTotals l).existing_debt_service = sumBy debtOf l :=
  foldl_aggStep_num (fun t => t.existing_debt_service) debtOf (fun _ _ => rfl) l initTotals

theorem aggTotals_txnCount (l : List (Option Insight)) :
    (aggTotals l).transaction_count = sumBy txnCountOf l :=
  foldl_aggStep_num (fun t => t.transaction_count) txnCountOf (fun _ _ => rfl) l initTotals

theorem aggTotals_avgBal (l : List (Option Insight)) :
    (aggTotals l).avg_daily_balance = sumBy avgBalOf l :=
  foldl_aggStep_num (fun t => t.avg_daily_balance) avgBalOf
    (fun t i => by cases hl : i.liquidity <;> simp [aggStep, avgBalOf, hl, jadd_zero]) l initTotals

theorem aggTotals_nsfCount (l : List (Option Insight)) :
    (aggTotals l).nsf_count = sumBy nsfCountOf l :=
  foldl_aggStep_num (fun t => t.nsf_count) nsfCountOf
    (fun t i => by cases hl : i.liquidity <;> simp [aggStep, nsfCountOf, hl, jadd_zero]) l initTotals

theorem aggTotals_nsfFees (l : List (Option Insight)) :
    (aggTotals l).nsf_fees = sumBy nsfFeesOf l :=
  foldl_aggStep_num (fun t => t.nsf_fees) nsfFeesOf
    (fun t i => by cases hl : i.liquidity <;> simp [aggStep, nsfFeesOf, hl, jadd_zero]) l initTotals

theorem aggTotals_daysNeg (l : List (Option Insight)) :
    (aggTotals l).days_negative = sumBy daysNegOf l :=
  foldl_aggStep_num (fun t => t.days_negative) daysNegOf
    (fun t i => by cases hl : i.liquidity <;> simp [aggStep, daysNegOf, hl, jadd_zero]) l initTotals

theorem aggTotals_cb (l : List (Option Insight)) :
    (aggTotals l).red_flags.chargebacks_count = sumBy cbOf l :=
  foldl_aggStep_num (fun t => t.red_flags.chargebacks_count) cbOf
    (fun t i => by cases hr : i.red_flags <;> simp [aggStep, cbOf, hr, jadd_zero]) l initTotals

theorem aggTotals_gambling (l : List (Option Insight)) :
    (aggTotals l).red_flags.gambling_crypto_hits = sumBy gamblingOf l :=
  foldl_aggStep_num (fun t => t.red_flags.gambling_crypto_hits) gamblingOf
    (fun t i => by cases hr : i.red_flags <;> simp [aggStep, gamblingOf, hr, jadd_zero]) l initTotals

theorem aggTotals_cashWd (l : List (Option Insight)) :
    (aggTotals l).red_flags.large_cash_withdrawals = sumBy cashWdOf l :=
  foldl_aggStep_num (fun t => t.red_flags.large_cash_withdrawals) cashWdOf
    (fun t i => by cases hr : i.red_flags <;> simp [aggStep, cashWdOf, hr, jadd_zero]) l initTotals

theorem aggTotals_roundDep (l : List (Option Insight)) :
    (aggTotals l).red_flags.round_number_cash_deposits = sumBy roundDepOf l :=
  foldl_aggStep_num (fun t => t.red_flags.round_number_cash_deposits) roundDepOf
    (fun t i => by cases hr : i.red_flags <;> simp [aggStep, roundDepOf, hr, jadd_zero]) l initTotals

theorem aggTotals_bills (l : List (Option Insight)) :
    (aggTotals l).recurring_bills = concatBy billsOf l :=
  foldl_aggStep_list (fun t => t.recurring_bills) billsOf
    (fun t i => by cases hb : i.recurring_bills <;> simp [aggStep, billsOf, hb]) l initTotals

theorem aggTotals_signals (l : List (Option Insight)) :
    (aggTotals l).loan_signals = concatBy signalsOf l :=
  foldl_aggStep_list (fun t => t.loan_signals) signalsOf
    (fun t i => by cases hb : i.loan_signals <;> simp [aggStep, signalsOf, hb]) l initTotals

/-! ## Claims C3 (corrected) and C7: `aggregateMetrics` -/

open JNum in
/-- The `avg_daily_balance` of an aggregation result (`NaN` on `null`,
which never occurs in the uses below). -/
def avgOf (o : Option Aggregated) : JNum :=
  match o with
  | some a => a.avg_daily_balance
  | none => nan

/-- The number of records that actually carry an `avg_daily_balance`
field — the denominator claim C3 asserts for the average. -/
def presentBalCount : List (Option Insight) → ℕ
  | [] => 0
  | none :: rest => presentBalCount rest
  | some i :: rest =>
    (match i.liquidity with
     | some lq => if lq.avg_daily_balance.isSome then 1 else 0
     | none => 0) + presentBalCount rest

/-- The input refuting claim C3: one record with an
`avg_daily_balance` of 100 and one non-null record without a
`liquidity` object. -/
def balCexList : List (Option Insight) :=
  [some { liquidity := some { avg_daily_balance := some (.num (num 100)) } }, some {}]

/-- Counterexample to claim C3 as stated: `aggregateMetrics` divides the
summed `avg_daily_balance` by the count of all non-null records (here
2), not by the count of documents carrying the field (here 1): the code
returns 50 where the claim requires 100/1 = 100. -/
theorem aggregateMetrics_avg_counterexample :
    avgOf (aggregateMetrics balCexList) = num 50 ∧
    jdiv (sumBy avgBalOf balCexList) (num (presentBalCount balCexList : ℚ)) = num 100 ∧
    JNum.num 50 ≠ JNum.num 100 := by
  refine ⟨?_, ?_, by norm_num⟩
  · norm_num [avgOf, balCexList, aggregateMetrics, finalizeAgg, aggTotals, aggStep,
      validCount, initTotals, jdiv, jadd, jsOr, parseFloat, JNum.jTruthy, truthyV]
  · norm_num [balCexList, sumBy, avgBalOf, presentBalCount, jdiv, jadd, jsOr,
      parseFloat, JNum.jTruthy, truthyV]

/-- Claim C3 as amended: for every non-empty list of insight records,
`aggregateMetrics` sums each numeric field (including the red-flag
counters) over the non-null records, concatenates `recurring_bills` and
`loan_signals` without deduplication, and averages `avg_daily_balance`
over the count of all non-null records (`validCount`) — not over the
count of records carrying that field. -/
theorem aggregateMetrics_aggregation (l : List (Option Insight)) (h : l ≠ []) :
    ∃ a, aggregateMetrics l = some a ∧
      a.monthly_income = sumBy incomeOf l ∧
      a.monthly_expenses = sumBy expensesOf l ∧
      a.net_cash_flow = sumBy netOf l ∧
      a.existing_debt_service = sumBy debtOf l ∧
      a.transaction_count = sumBy txnCountOf l ∧
      a.nsf_count = sumBy nsfCountOf l ∧
      a.nsf_fees = sumBy nsfFeesOf l ∧
      a.days_negative = sumBy daysNegOf l ∧
      a.red_flags.chargebacks_count = sumBy cbOf l ∧
      a.red_flags.gambling_crypto_hits = sumBy gamblingOf l ∧
      a.red_flags.large_cash_withdrawals = sumBy cashWdOf l ∧
      a.red_flags.round_number_cash_deposits = sumBy roundDepOf l ∧
      a.recurring_bills = concatBy billsOf l ∧
      a.loan_signals = concatBy signalsOf l ∧
      a.avg_daily_balance =
        (if 0 < validCount l then jdiv (sumBy avgBalOf l) (num (validCount l : ℚ))
         else num 0) := by
  have hsome : aggregateMetrics l = some (finalizeAgg l) := by
    cases l with
    | nil => exact absurd rfl h
    | cons x xs => rfl
  refine ⟨finalizeAgg l, hsome, ?_, ?_, ?_, ?_, ?_, ?_, ?_, ?_, ?_, ?_, ?_, ?_, ?_, ?_, ?_⟩
  · rw [show (finalizeAgg l).monthly_income = (aggTotals l).monthly_income from by
      simp only [finalizeAgg]; split <;> rfl, aggTotals_income]
  · rw [show (finalizeAgg l).monthly_expenses = (aggTotals l).monthly_expenses from by
      simp only [finalizeAgg]; split <;> rfl, aggTotals_expenses]
  · rw [show (finalizeAgg l).net_cash_flow = (aggTotals l).net_cash_flow from by
      simp only [finalizeAgg]; split <;> rfl, aggTotals_net]
  · rw [show (finalizeAgg l).existing_debt_service = (aggTotals l).existing_debt_service from by
      simp only [finalizeAgg]; split <;> rfl, aggTotals_debt]
  · rw [show (finalizeAgg l).transaction_count = (aggTotals l).transaction_count from by
      simp only [finalizeAgg]; split <;> rfl, aggTotals_txnCount]
  · rw [show (finalizeAgg l).nsf_count = (aggTotals l).nsf_count from by
      simp only [finalizeAgg]; split <;> rfl, aggTotals_nsfCount]
  · rw [show (finalizeAgg l).nsf_fees = (aggTotals l).nsf_fees from by
      simp only [finalizeAgg]; split <;> rfl, aggTotals_nsfFees]
  · rw [show (finalizeAgg l).days_negative = (aggTotals l).days_negative from by
      simp only [finalizeAgg]; split <;> rfl, aggTotals_daysNeg]
  · rw [show (finalizeAgg l).red_flags = (aggTotals l).red_flags from by
      simp only [finalizeAgg]; split <;> rfl, aggTotals_cb]
  · rw [show (finalizeAgg l).red_flags = (aggTotals l).red_flags from by
      simp only [finalizeAgg]; split <;> rfl, aggTotals_gambling]
  · rw [show (finalizeAgg l).red_flags = (aggTotals l).red_flags from by
      simp only [finalizeAgg]; split <;> rfl, aggTotals_cashWd]
  · rw [show (finalizeAgg l).red_flags = (aggTotals l).red_flags from by
      simp only [finalizeAgg]; split <;> rfl, aggTotals_roundDep]
  · rw [show (finalizeAgg l).recurring_bills = (aggTotals l).recurring_bills from by
      simp only [finalizeAgg]; split <;> rfl, aggTotals_bills]
  · rw [show (finalizeAgg l).loan_signals = (aggTotals l).loan_signals from by
      simp only [finalizeAgg]; split <;> rfl, aggTotals_signals]
  · have e : (finalizeAgg l).avg_daily_balance =
        (if 0 < validCount l then jdiv (aggTotals l).avg_daily_balance (num (validCount l : ℚ))
         else (aggTotals l).avg_daily_balance) := by
      by_cases hvc : 0 < validCount l <;> simp [finalizeAgg, hvc]
    rw [e]
    by_cases hvc : 0 < validCount l
    · rw [if_pos hvc, if_pos hvc, aggTotals_avgBal]
    · rw [if_neg hvc, if_neg hvc,
        show aggTotals l = initTotals from
          foldl_aggStep_all_none l (Nat.eq_zero_of_not_pos hvc) initTotals]
      rfl

/-- Witness for the amended C3 on a one-record list. -/
theorem aggregateMetrics_aggregation_witness :
    ∃ a, aggregateMetrics [some ({} : Insight)] = some a ∧
      a.monthly_income = sumBy incomeOf [some ({} : Insight)] := by
  obtain ⟨a, ha, hinc, -⟩ := aggregateMetrics_aggregation [some ({} : Insight)] (by simp)
  exact ⟨a, ha, hinc⟩

/-- Claim C7: `aggregateMetrics` of the empty list is `null` (with no
division-by-zero error anywhere — the function is total), and for every
non-empty list the returned `cash_flow_margin` is
`(net / income) * 100` when the summed income is `> 0` (in the JS
sense) and `0` otherwise, while `dscr_existing` is `net / debt` when
the summed debt service is `> 0` and `null` otherwise. -/
theorem aggregateMetrics_derived :
    aggregateMetrics ([] : List (Option Insight)) = none ∧
    ∀ l : List (Option Insight), l ≠ [] →
      ∃ a, aggregateMetrics l = some a ∧
        a.cash_flow_margin =
          (if jgt (sumBy incomeOf l) (num 0)
           then jmul (jdiv (sumBy netOf l) (sumBy incomeOf l)) (num 100)
           else num 0) ∧
        a.dscr_existing =
          (if jgt (sumBy debtOf l) (num 0)
           then some (jdiv (sumBy netOf l) (sumBy debtOf l))
           else none) := by
  refine ⟨rfl, fun l h => ?_⟩
  have hsome : aggregateMetrics l = some (finalizeAgg l) := by
    cases l with
    | nil => exact absurd rfl h
    | cons x xs => rfl
  refine ⟨finalizeAgg l, hsome, ?_, ?_⟩
  · rw [show (finalizeAgg l).cash_flow_margin =
        (if jgt (aggTotals l).monthly_income (num 0)
         then jmul (jdiv (aggTotals l).net_cash_flow (aggTotals l).monthly_income) (num 100)
         else num 0) from by
      simp only [finalizeAgg]; split <;> rfl]
    rw [aggTotals_income, aggTotals_net]
  · rw [show (finalizeAgg l).dscr_existing =
        (if jgt (aggTotals l).existing_debt_service (num 0)
         then some (jdiv (aggTotals l).net_cash_flow (aggTotals l).existing_debt_service)
         else none) from by
      simp only [finalizeAgg]; split <;> rfl]
    rw [aggTotals_debt, aggTotals_net]

/-- Witness for C7 on a one-record list: summed debt service 0 gives a
`null` DSCR, summed income 0 gives margin 0. -/
theorem aggregateMetrics_derived_witness :
    ∃ a, aggregateMetrics [some ({} : Insight)] = some a ∧
      a.cash_flow_margin = num 0 ∧ a.dscr_existing = none := by
  obtain ⟨a, ha, hm, hd⟩ := aggregateMetrics_derived.2 [some ({} : Insight)] (by simp)
  refine ⟨a, ha, ?_, ?_⟩
  · rw [hm]
    norm_num [sumBy, incomeOf, netOf, jsOr, parseFloat, jadd, jgt, jlt]
  · rw [hd]
    norm_num [sumBy, debtOf, netOf, jsOr, parseFloat, jadd, jgt, jlt]

/-! ## Claim C5 (corrected): bucket percentages sum to 100 -/

open JNum in
/-- The JS-level sum of the `pct` fields of a segment list. -/
def segPctSum (l : List Segment) : JNum :=
  l.foldl (fun a s => jadd a s.pct) (num 0)

/-- The rational values of the totals stored in `totalsByBucket`. -/
def qvals (m : List (String × JNum)) : List ℚ := m.map (fun p => p.2.toQ)

/-- All totals stored in `totalsByBucket` are finite numbers. -/
def finVals (m : List (String × JNum)) : Prop := ∀ p ∈ m, ∃ q, p.2 = num q

theorem toQ_num (q : ℚ) : (num q).toQ = q := rfl

/-- A JS fold of finite summands over a finite start computes the exact
rational sum. -/
theorem jadd_foldl_fin {α : Type} (f : α → JNum) :
    ∀ (l : List α), (∀ x ∈ l, ∃ q, f x = num q) →
      ∀ a : ℚ, l.foldl (fun acc x => jadd acc (f x)) (num a) =
        num (a + (l.map (fun x => (f x).toQ)).sum) := by
  intro l
  induction l with
  | nil => intro _ a; simp
  | cons x rest ih =>
    intro h a
    obtain ⟨q, hq⟩ := h x (List.mem_cons_self x rest)
    rw [List.foldl_cons, show jadd (num a) (f x) = num (a + q) from by rw [hq]; rfl,
      ih (fun y hy => h y (List.mem_cons_of_mem x hy)) (a + q),
      List.map_cons, List.sum_cons, hq]
    exact congrArg num (by simp [toQ]; ring)

/-- The sum `segPctSum` of an all-finite segment list is the exact rational sum. -/
theorem segPctSum_fin (l : List Segment) (h : ∀ s ∈ l, ∃ q, s.pct = num q) :
    segPctSum l = num ((l.map (fun s => s.pct.toQ)).sum) := by
  simpa [segPctSum] using jadd_foldl_fin (fun s : Segment => s.pct) l h 0

theorem insertSeg_perm (x : Segment) : ∀ l : List Segment, (insertSeg x l).Perm (x :: l) := by
  intro l
  induction l with
  | nil => exact List.Perm.refl _
  | cons y rest ih =>
    cases hc : jlt y.pct x.pct with
    | true => simp [insertSeg, hc]
    | false =>
      simp only [insertSeg, hc, Bool.false_eq_true, if_false]
      exact (ih.cons y).trans (List.Perm.swap x y rest)

theorem sortSegs_perm : ∀ l : List Segment, (sortSegs l).Perm l := by
  intro l
  induction l with
  | nil => exact List.Perm.refl _
  | cons x rest ih => exact (insertSeg_perm x (sortSegs rest)).trans (ih.cons x)

/-- An `upsert` with a finite amount keeps every stored total finite (the
`|| 0` inside it can only replace a falsy stored value by `0`). -/
theorem upsert_finVals (k : String) (q : ℚ) :
    ∀ m, finVals m → finVals (upsert m k (num q)) := by
  intro m
  induction m with
  | nil =>
    intro _ p hp
    simp only [upsert, List.mem_singleton] at hp
    exact ⟨q, by rw [hp]⟩
  | cons p0 rest ih =>
    intro hf p hp
    obtain ⟨q0, hq0⟩ := hf p0 (List.mem_cons_self p0 rest)
    have hfrest : finVals rest := fun y hy => hf y (List.mem_cons_of_mem p0 hy)
    by_cases hk : p0.1 = k
    · rw [show upsert (p0 :: rest) k (num q) =
          (p0.1, jadd (if p0.2.jTruthy then p0.2 else num 0) (num q)) :: rest from by
        simp [upsert, hk]] at hp
      rcases List.mem_cons.mp hp with rfl | hmem
      · rw [hq0]
        by_cases h0 : q0 = 0
        · exact ⟨q, by simp [jTruthy, h0, jadd]⟩
        · exact ⟨q0 + q, by simp [jTruthy, h0, jadd]⟩
      · exact hfrest p hmem
    · rw [show upsert (p0 :: rest) k (num q) = p0 :: upsert rest k (num q) from by
        simp [upsert, hk]] at hp
      rcases List.mem_cons.mp hp with rfl | hmem
      · exact ⟨q0, hq0⟩
      · exact ih hfrest p hmem

/-- An `upsert` with a finite amount adds exactly that amount to the sum of
the stored totals, provided they are all finite. -/
theorem upsert_sum (k : String) (q : ℚ) :
    ∀ m, finVals m → (qvals (upsert m k (num q))).sum = (qvals m).sum + q := by
  intro m
  induction m with
  | nil => simp [upsert, qvals, toQ]
  | cons p0 rest ih =>
    intro hf
    obtain ⟨q0, hq0⟩ := hf p0 (List.mem_cons_self p0 rest)
    have hfrest : finVals rest := fun y hy => hf y (List.mem_cons_of_mem p0 hy)
    by_cases hk : p0.1 = k
    · rw [show upsert (p0 :: rest) k (num q) =
          (p0.1, jadd (if p0.2.jTruthy then p0.2 else num 0) (num q)) :: rest from by
        simp [upsert, hk]]
      simp only [qvals, List.map_cons, List.sum_cons, hq0]
      have hval : toQ ((if (num q0).jTruthy = true then num q0 else num 0).jadd (num q)) =
          q0 + q := by
        by_cases h0 : q0 = 0
        · simp [jTruthy, h0, jadd, toQ]
        · simp [jTruthy, h0, jadd, toQ]
      rw [hval]
      simp only [toQ_num]
      ring
    · rw [show upsert (p0 :: rest) k (num q) = p0 :: upsert rest k (num q) from by
        simp [upsert, hk]]
      simp only [qvals, List.map_cons, List.sum_cons] at ih ⊢
      rw [ih hfrest]
      ring

/-- Invariant of the single loop of `buildSegmentsFromBreakdowns`: with
all amounts finite, every stored bucket total stays finite and `overall`
equals the sum of the stored totals. -/
theorem gfold_invariant :
    ∀ (bs : List (Option Breakdown)), (∀ b ∈ bs, ∃ q, amountOf b = num q) →
      ∀ (m0 : List (String × JNum)) (q0 : ℚ), finVals m0 → (qvals m0).sum = q0 →
        finVals (bs.foldl gStep (m0, num q0)).1 ∧
        (bs.foldl gStep (m0, num q0)).2 = num ((qvals (bs.foldl gStep (m0, num q0)).1).sum) := by
  intro bs
  induction bs with
  | nil =>
    intro _ m0 q0 hf hs
    exact ⟨hf, by simp [hs]⟩
  | cons b rest ih =>
    intro h m0 q0 hf hs
    obtain ⟨qb, hqb⟩ := h b (List.mem_cons_self b rest)
    have hstep : gStep (m0, num q0) b = (upsert m0 (bucketOf b) (num qb), num (q0 + qb)) := by
      simp [gStep, hqb, jadd]
    rw [List.foldl_cons, hstep]
    exact ih (fun y hy => h y (List.mem_cons_of_mem b hy)) _ _
      (upsert_finVals _ _ _ hf)
      (by rw [upsert_sum _ _ _ hf, hs])

/-- Counterexample to claim C5 as stated: a present but unparseable
string amount makes `overall` equal to `NaN`, the `overall <= 0` guard
does not fire (`NaN <= 0` is false), and the function returns one
segment whose `pct` is `NaN`, so the non-empty segment list does not
sum to 100. -/
theorem buildSegments_nan_counterexample :
    buildSegmentsFromBreakdowns [some ⟨some "A", some (.str "x")⟩] = [⟨"A", JNum.nan⟩] ∧
    segPctSum (buildSegmentsFromBreakdowns [some ⟨some "A", some (.str "x")⟩]) = JNum.nan ∧
    JNum.nan ≠ num 100 :=
  ⟨rfl, rfl, by decide⟩

/-- Claim C5 as amended: whenever every (coerced) bucket amount is a
finite number and the returned segment list is non-empty, the `pct`
values of the returned segments sum to exactly 100 in this exact-
arithmetic model (the implementation matches up to floating rounding). -/
theorem buildSegments_pct_sum (bs : List (Option Breakdown))
    (hfin : ∀ b ∈ bs, ∃ q, amountOf b = num q)
    (hne : buildSegmentsFromBreakdowns bs ≠ []) :
    segPctSum (buildSegmentsFromBreakdowns bs) = num 100 := by
  obtain ⟨hfv, hov⟩ := gfold_invariant bs hfin [] 0 (by intro p hp; cases hp) (by simp [qvals])
  have hov' : (groupFold bs).2 = num ((qvals (groupFold bs).1).sum) := hov
  cases hjle : jle (groupFold bs).2 (num 0) with
  | true => exact absurd (by simp [buildSegmentsFromBreakdowns, hjle]) hne
  | false =>
    have hQpos : 0 < (qvals (groupFold bs).1).sum := by
      rw [hov'] at hjle
      simpa [jle] using hjle
    have hQne : (qvals (groupFold bs).1).sum ≠ 0 := ne_of_gt hQpos
    have hbuild : buildSegmentsFromBreakdowns bs =
        sortSegs ((groupFold bs).1.map (segOf (num ((qvals (groupFold bs).1).sum)))) := by
      simp only [buildSegmentsFromBreakdowns, hjle, Bool.false_eq_true, if_false, ← hov']
    have hpct : ∀ p ∈ (groupFold bs).1,
        (segOf (num ((qvals (groupFold bs).1).sum)) p).pct =
          num (p.2.toQ / (qvals (groupFold bs).1).sum * 100) := by
      intro p hp
      obtain ⟨g, hg⟩ := hfv p hp
      simp [segOf, hg, jdiv, hQne, jmul, toQ]
    have hfin2 : ∀ s ∈ sortSegs ((groupFold bs).1.map
          (segOf (num ((qvals (groupFold bs).1).sum)))), ∃ q, s.pct = num q := by
      intro s hs
      have hs' := (sortSegs_perm _).mem_iff.mp hs
      rcases List.mem_map.mp hs' with ⟨p, hp, rfl⟩
      exact ⟨_, hpct p hp⟩
    rw [hbuild, segPctSum_fin _ hfin2]
    congr 1
    rw [((sortSegs_perm _).map (fun s => s.pct.toQ)).sum_eq]
    rw [List.map_map,
      show ((fun s : Segment => s.pct.toQ) ∘ segOf (num ((qvals (groupFold bs).1).sum))) =
        (fun p : String × JNum =>
          (segOf (num ((qvals (groupFold bs).1).sum)) p).pct.toQ) from rfl]
    rw [List.map_congr_left (fun p hp => by rw [hpct p hp])]
    simp only [toQ_num]
    rw [show (fun p : String × JNum => p.2.toQ / (qvals (groupFold bs).1).sum * 100) =
        (fun p : String × JNum => p.2.toQ * (100 / (qvals (groupFold bs).1).sum)) from
      funext fun p => by ring]
    rw [List.sum_map_mul_right,
      show ((groupFold bs).1.map fun p => p.2.toQ) = qvals (groupFold bs).1 from rfl]
    field_simp

/-- Witness for the amended C5: amounts 30 and 10 in two buckets yield
segments whose percentages (75 and 25) sum to 100. -/
theorem buildSegments_pct_sum_witness :
    segPctSum (buildSegmentsFromBreakdowns
      [some ⟨some "A", some (.num (num 30))⟩, some ⟨some "B", some (.num (num 10))⟩]) =
      num 100 := by
  apply buildSegments_pct_sum
  · intro b hb
    simp only [List.mem_cons, List.not_mem_nil, or_false] at hb
    rcases hb with rfl | rfl
    · exact ⟨30, by norm_num [amountOf, jTruthy]⟩
    · exact ⟨10, by norm_num [amountOf, jTruthy]⟩
  · norm_num [buildSegmentsFromBreakdowns, groupFold, gStep, upsert, bucketOf, amountOf,
      jadd, jle, jTruthy, sortSegs, insertSeg, segOf, jdiv, jmul, jlt]
    exact List.cons_ne_nil _ _

end LoanProc
